import Mathlib

/-!
Shallow embedding of `contract_review_service.py`, a heuristic contract-text
reviewer.  Strings are modelled as `List Char`; the regular expressions the
source compiles are modelled by executable matching functions with the same
semantics on the ASCII inputs the service handles (`\w` is modelled as
ASCII alphanumeric or underscore, `\s` as the six ASCII whitespace
characters).
-/

namespace ContractReview

/-- Strings of the embedded program. -/
abbrev Str := List Char

/-- Model of the regex class `\w` (word character): ASCII alphanumeric or
underscore. -/
def isWordChar (c : Char) : Bool := c.isAlphanum || c = '_'

/-- Model of the regex class `\s` (whitespace): the six ASCII whitespace
characters. -/
def isSpaceChar (c : Char) : Bool :=
  c = ' ' || c = '\t' || c = '\n' || c = '\r' || c = '\x0b' || c = '\x0c'

/-- Python `str.strip()`: remove leading and trailing whitespace. -/
def strip (s : Str) : Str :=
  ((s.dropWhile isSpaceChar).reverse.dropWhile isSpaceChar).reverse

/-- Python `str.lower()` on the ASCII range. -/
def lowerStr (s : Str) : Str := s.map Char.toLower

/-- Python `str.upper()` on the ASCII range. -/
def upperStr (s : Str) : Str := s.map Char.toUpper

/-- Model of `re.sub(r"\s+", " ", s)`: every maximal whitespace run becomes
one single space. -/
def collapseWs : Str → Str
  | [] => []
  | [c] => if isSpaceChar c then [' '] else [c]
  | c :: d :: rest =>
      if isSpaceChar c && isSpaceChar d then collapseWs (d :: rest)
      else (if isSpaceChar c then ' ' else c) :: collapseWs (d :: rest)

/-- `ContractReviewService._normalise_text`:
`re.sub(r"\s+", " ", text.strip().lower())`. -/
def normaliseText (text : Str) : Str := collapseWs (lowerStr (strip text))

/-- Does this (optional) character end a sentence (`.`, `!` or `?`)? -/
def isTermPunct : Option Char → Bool
  | some c => c == '.' || c == '!' || c == '?'
  | none => false

/-- Model of `re.split(r"(?<=[.!?])\s+", text)`: split at each maximal
whitespace run immediately preceded by `.`, `!` or `?`.  `cur` holds the
current fragment in reverse; `skipping` is true while consuming the
whitespace run just matched (the run is greedy, so it is consumed whole). -/
def rawSplitGo (skipping : Bool) (cur : Str) : Str → List Str
  | [] => [cur.reverse]
  | c :: rest =>
      if skipping then
        if isSpaceChar c then rawSplitGo true [] rest
        else rawSplitGo false [c] rest
      else if isSpaceChar c && isTermPunct cur.head? then
        cur.reverse :: rawSplitGo true [] rest
      else rawSplitGo false (c :: cur) rest

/-- `ContractReviewService._split_sentences`: regex split, then strip each
fragment and drop the empty ones. -/
def splitSentences (text : Str) : List Str :=
  ((rawSplitGo false [] text).map strip).filter fun s => !s.isEmpty

/-- Python `keyword.split()`: split on whitespace runs, dropping empty
parts. -/
def splitWsParts (s : Str) : List Str :=
  let step := fun (c : Char) (acc : List Str × Str) =>
    if isSpaceChar c then ((if acc.2.isEmpty then acc.1 else acc.2 :: acc.1), [])
    else (acc.1, c :: acc.2)
  let r := s.foldr step ([], [])
  if r.2.isEmpty then r.1 else r.2 :: r.1

/-- The three shapes of compiled pattern `_build_keyword_pattern` can
return: `emptyPat` is `re.compile(r"^$")` (for an empty keyword);
`boundary ps` is `\b p₁ \s+ p₂ … \b` (for one part it is `\b p \b`);
`literal p` is the bare escaped keyword. -/
inductive KeywordPattern where
  | emptyPat : KeywordPattern
  | boundary : List Str → KeywordPattern
  | literal : Str → KeywordPattern
deriving DecidableEq

/-- The source's first step on a keyword: `keyword.strip().lower()`. -/
def normKeyword (kw : Str) : Str := lowerStr (strip kw)

/-- `ContractReviewService._build_keyword_pattern`.  `re.escape` makes each
part match literally, so escaping is the identity in this model. -/
def buildKeywordPattern (keyword : Str) : KeywordPattern :=
  let k := normKeyword keyword
  if k.isEmpty then .emptyPat
  else if k.any isSpaceChar then .boundary (splitWsParts k)
  else if k.any isWordChar then .boundary [k]
  else .literal k

/-- Lengths of matches of `p₁ \s+ p₂ … \s+ pₙ` against a prefix of `s`.
The parts come from `keyword.split()`, so they are non-empty and contain no
whitespace; hence the greedy `\s+` gap must extend exactly to the first
non-whitespace character and backtracking cannot produce other matches. -/
def matchEnds : List Str → Str → List Nat
  | [], _ => []
  | [p], s => if p.isPrefixOf s then [p.length] else []
  | p :: q :: rest, s =>
      if p.isPrefixOf s then
        let s1 := s.drop p.length
        let j := (s1.takeWhile isSpaceChar).length
        if j = 0 then []
        else (matchEnds (q :: rest) (s1.drop j)).map fun l => p.length + j + l
      else []

/-- Is position `p` of `s` occupied by a word character?  Out-of-range
positions count as non-word, as in the regex semantics of `\b`. -/
def wordAt (s : Str) (p : Nat) : Bool :=
  match s[p]? with
  | some c => isWordChar c
  | none => false

/-- Regex `\b`: a word boundary holds at position `p` iff exactly one of
the two adjacent positions holds a word character. -/
def boundaryAt (s : Str) (p : Nat) : Bool :=
  (if p = 0 then false else wordAt s (p - 1)) != wordAt s p

/-- `re.search` for a `\b … \b` pattern: some start position carries a
match whose both ends sit on word boundaries. -/
def searchWB (parts : List Str) (s : Str) : Bool :=
  (List.range (s.length + 1)).any fun i =>
    (matchEnds parts (s.drop i)).any fun l =>
      boundaryAt s i && boundaryAt s (i + l)

/-- Python substring containment (`kw in s`), also `re.search` of a bare
escaped literal. -/
def containsSub (kw s : Str) : Bool :=
  (List.range (s.length + 1)).any fun i => kw.isPrefixOf (s.drop i)

/-- `pattern.search(sentence)` truthiness for each pattern shape.  The
empty-keyword pattern `^$` matches exactly the empty string and the string
consisting of one newline (`$` also matches just before a final newline). -/
def patternSearch : KeywordPattern → Str → Bool
  | .emptyPat, s => s.isEmpty || s = ['\n']
  | .boundary parts, s => searchWB parts s
  | .literal k, s => containsSub k s

/-- `ClauseConfig` dataclass. -/
structure ClauseConfig where
  name : Str
  keywords : List Str
  missing_risk : Str
  summary : Str
  recommendation : Str
  warning_keywords : List Str
  positive_keywords : List Str
deriving DecidableEq

/-- `ClauseResult` dataclass. -/
structure ClauseResult where
  name : Str
  present : Bool
  risk_level : Str
  matched_sentences : List Str
  issues : List Str
  notes : List Str
  recommendation : Str
  summary : Str
deriving DecidableEq

/-- The apostrophe character used by the warning message template. -/
def apos : Char := Char.ofNat 39

/-- The rendered warning message for one warning keyword hit. -/
def warningMsg (kw : Str) : Str :=
  ("주의: ").toList ++ [apos] ++ kw ++ [apos] ++
    (" 표현이 포함되어 있어 위험이 증가할 수 있습니다.").toList

/-- Python `", ".join(parts)`. -/
def joinSep (sep : Str) : List Str → Str
  | [] => []
  | [x] => x
  | x :: y :: ys => x ++ sep ++ joinSep sep (y :: ys)

/-- The rendered positive note for the positive keywords found in one
sentence. -/
def positiveMsg (hits : List Str) : Str :=
  ("양호: ").toList ++ joinSep ((", ").toList) hits ++
    (" 표현이 있어 조건이 개선됩니다.").toList

/-- The issue message for a clause that was not detected. -/
def notDetectedMsg (name : Str) : Str :=
  name ++ (" 조항이 감지되지 않았습니다.").toList

/-- The marker substring whose presence in a rendered warning message the
source treats as "severe". -/
def sevMarker : Str := ("심각").toList

/-- Warning messages produced by one sentence: one message per warning
keyword contained (plain substring) in the sentence, in keyword order. -/
def sentenceWarnings (config : ClauseConfig) (sentence : Str) : List Str :=
  (config.warning_keywords.filter fun kw => containsSub kw sentence).map warningMsg

/-- Positive keywords contained (plain substring) in one sentence. -/
def sentencePositiveHits (config : ClauseConfig) (sentence : Str) : List Str :=
  config.positive_keywords.filter fun kw => containsSub kw sentence

/-- One iteration of the `_evaluate_warnings` loop: append this sentence's
warning messages, and one combined positive note when the sentence has
positive hits. -/
def warnStep (config : ClauseConfig) (acc : List Str × List Str) (sentence : Str) :
    List Str × List Str :=
  let hits := sentencePositiveHits config sentence
  (acc.1 ++ sentenceWarnings config sentence,
   if hits.isEmpty then acc.2 else acc.2 ++ [positiveMsg hits])

/-- `ContractReviewService._evaluate_warnings`. -/
def evaluateWarnings (config : ClauseConfig) (sentences : List Str) :
    List Str × List Str :=
  sentences.foldl (warnStep config) ([], [])

/-- The sentences that match at least one of the clause's keywords. -/
def matchedSentences (config : ClauseConfig) (sentences : List Str) : List Str :=
  let keywordPatterns := config.keywords.map buildKeywordPattern
  sentences.filter fun sentence =>
    keywordPatterns.any fun p => patternSearch p sentence

/-- The risk-level computation of `_evaluate_clause`, line by line:
baseline `low` when matched (else `missing_risk`); when matched and some
warning exists (the `risk != "high"` guard is vacuous, the baseline being
`low`), escalate to `medium`, and to `high` when some warning message
contains the severe marker. -/
def clauseRisk (hasMatch : Bool) (missing : Str) (warnings : List Str) : Str :=
  let risk : Str := if hasMatch then ("low").toList else missing
  if hasMatch then
    if warnings ≠ [] ∧ risk ≠ ("high").toList then
      let risk2 : Str := if risk = ("low").toList then ("medium").toList else risk
      if warnings.any fun w => containsSub sevMarker w then ("high").toList else risk2
    else risk
  else risk

/-- `ContractReviewService._evaluate_clause`. -/
def evaluateClause (config : ClauseConfig) (sentences : List Str) : ClauseResult :=
  let matched := matchedSentences config sentences
  let wp := evaluateWarnings config matched
  let risk := clauseRisk (!matched.isEmpty) config.missing_risk wp.1
  { name := config.name
    present := !matched.isEmpty
    risk_level := risk
    matched_sentences := matched
    issues := if matched.isEmpty then [notDetectedMsg config.name] else wp.1
    notes := if matched.isEmpty then [] else wp.2
    recommendation := config.recommendation
    summary := config.summary }

/-- `_calculate_overall_risk`'s ordinal map; `dict.get` with default `0`
sends any unrecognised level to `0`. -/
def riskScore (r : Str) : Nat :=
  if r = ("low").toList then 0
  else if r = ("medium").toList then 1
  else if r = ("high").toList then 2
  else 0

/-- The reverse lookup loop of `_calculate_overall_risk`: the first level
whose ordinal equals the maximum (insertion order low, medium, high), with
the unreachable fallback `"low"`. -/
def scoreLevel (n : Nat) : Str :=
  if n = 0 then ("low").toList
  else if n = 1 then ("medium").toList
  else if n = 2 then ("high").toList
  else ("low").toList

/-- `ContractReviewService._calculate_overall_risk`; `max(..., default=0)`
over naturals is a fold of `max` from `0`. -/
def calculateOverallRisk (results : List ClauseResult) : Str :=
  scoreLevel ((results.map fun r => riskScore r.risk_level).foldl max 0)

/-- The service: the only state is the immutable clause-configuration
list captured at construction. -/
structure ContractReviewService where
  clauses : List ClauseConfig

/-- `ReviewResult`: the dictionary `review` returns. -/
structure ReviewResult where
  overall_risk : Str
  clauses : List ClauseResult
deriving DecidableEq

/-- `ContractReviewService.review`. -/
def ContractReviewService.review (svc : ContractReviewService)
    (contract_text : Str) : ReviewResult :=
  let normalised := normaliseText contract_text
  let sentences := splitSentences normalised
  let clause_results := svc.clauses.map fun clause => evaluateClause clause sentences
  { overall_risk := calculateOverallRisk clause_results
    clauses := clause_results }

/-- `ContractReviewService._default_configs`. -/
def defaultConfigs : List ClauseConfig :=
  [ { name := ("Termination").toList
      keywords := [("terminate").toList, ("termination").toList, ("notice").toList, ("cancel").toList]
      missing_risk := ("high").toList
      summary := ("Termination 권한과 조건을 확인합니다.").toList
      recommendation := ("상호 합리적인 통지 기간과 사유를 명시하세요.").toList
      warning_keywords := [("immediate").toList, ("sole discretion").toList, ("without cause").toList]
      positive_keywords := [("written notice").toList, ("prior notice").toList, ("mutual").toList] }
  , { name := ("Confidentiality").toList
      keywords := [("confidential").toList, ("non-disclosure").toList, ("nda").toList, ("proprietary").toList]
      missing_risk := ("high").toList
      summary := ("기밀 유지 의무의 범위를 점검합니다.").toList
      recommendation := ("기밀 정보의 정의와 예외 사항을 명확히 하세요.").toList
      warning_keywords := [("perpetual").toList, ("unlimited").toList, ("irrevocable").toList]
      positive_keywords := [("return").toList, ("destroy").toList, ("survive").toList] }
  , { name := ("Liability").toList
      keywords := [("liability").toList, ("indemnify").toList, ("damages").toList, ("hold harmless").toList]
      missing_risk := ("high").toList
      summary := ("책임 및 손해배상 한도를 확인합니다.").toList
      recommendation := ("손해배상 한도와 면책 범위를 명확히 정의하세요.").toList
      warning_keywords := [("unlimited").toList, ("all damages").toList, ("any damages").toList]
      positive_keywords := [("cap").toList, ("limited").toList, ("maximum").toList] }
  , { name := ("Payment Terms").toList
      keywords := [("payment").toList, ("fee").toList, ("compensation").toList, ("invoice").toList]
      missing_risk := ("medium").toList
      summary := ("대금 지급 조건을 확인합니다.").toList
      recommendation := ("지급 시기와 조건, 지연 시 조치를 포함하세요.").toList
      warning_keywords := [("late fee").toList, ("penalty").toList, ("interest").toList]
      positive_keywords := [("net").toList, ("days").toList, ("schedule").toList] }
  , { name := ("Intellectual Property").toList
      keywords := [("intellectual property").toList, ("ip").toList, ("license").toList, ("ownership").toList]
      missing_risk := ("medium").toList
      summary := ("지식 재산권 귀속과 사용 조건을 확인합니다.").toList
      recommendation := ("귀속 주체와 사용 범위를 명시하세요.").toList
      warning_keywords := [("assign").toList, ("transfer").toList, ("exclusive").toList]
      positive_keywords := [("retain").toList, ("non-exclusive").toList, ("limited").toList] }
  , { name := ("Governing Law").toList
      keywords := [("governing law").toList, ("jurisdiction").toList, ("venue").toList]
      missing_risk := ("low").toList
      summary := ("준거법과 관할을 확인합니다.").toList
      recommendation := ("분쟁 해결 절차와 관할을 구체적으로 명시하세요.").toList
      warning_keywords := [("exclusive jurisdiction").toList, ("foreign").toList]
      positive_keywords := [("arbitration").toList, ("mediation").toList] }
  ]

/-- The service built with no explicit configuration list. -/
def defaultService : ContractReviewService := ⟨defaultConfigs⟩

/-- The per-clause lines emitted by `generate_report` (the trailing `[]`
is the blank line appended after each clause). -/
def clauseLines (clause : ClauseResult) : List Str :=
  [("[").toList ++ clause.name ++ (" - 위험도: ").toList ++ clause.risk_level ++ ("]").toList,
   clause.summary]
  ++ (if clause.matched_sentences.isEmpty then []
      else (("  감지된 문장:").toList) ::
        clause.matched_sentences.map fun s => ("    - ").toList ++ s)
  ++ (if clause.issues.isEmpty then []
      else (("  이슈:").toList) :: clause.issues.map fun s => ("    - ").toList ++ s)
  ++ (if clause.notes.isEmpty then []
      else (("  참고:").toList) :: clause.notes.map fun s => ("    - ").toList ++ s)
  ++ (if clause.recommendation.isEmpty then []
      else [("  권장 조치: ").toList ++ clause.recommendation])
  ++ [[]]

/-- `ContractReviewService.generate_report`. -/
def generate_report (review_result : ReviewResult) : Str :=
  let header : List Str :=
    [("AI 기반 계약서 분석 보고서").toList,
     ("============================").toList,
     ("전체 위험도: ").toList ++ upperStr review_result.overall_risk,
     []]
  let body := (review_result.clauses.map clauseLines).flatten
  let lines := header ++ body ++
    (if review_result.clauses.isEmpty then [("분석된 조항이 없습니다.").toList] else [])
  joinSep [('\n')] lines

/-- Valid risk levels per the data model. -/
def validRisk (r : Str) : Prop :=
  r = ("low").toList ∨ r = ("medium").toList ∨ r = ("high").toList

instance (r : Str) : Decidable (validRisk r) := by
  unfold validRisk; infer_instance

/-! ### Helper lemmas -/

lemma foldl_max_init_le (l : List Nat) (a : Nat) : a ≤ l.foldl max a := by
  induction l generalizing a with
  | nil => exact le_refl a
  | cons x xs ih =>
      exact le_trans (le_max_left a x) (ih (max a x))

lemma mem_le_foldl_max (l : List Nat) (a x : Nat) (hx : x ∈ l) :
    x ≤ l.foldl max a := by
  induction l generalizing a with
  | nil => cases hx
  | cons y ys ih =>
      rcases List.mem_cons.mp hx with h | h
      · subst h
        exact le_trans (le_max_right a x) (foldl_max_init_le ys (max a x))
      · exact ih (max a y) h

lemma foldl_max_eq_or_mem (l : List Nat) (a : Nat) :
    l.foldl max a = a ∨ l.foldl max a ∈ l := by
  induction l generalizing a with
  | nil => exact Or.inl rfl
  | cons x xs ih =>
      rcases ih (max a x) with h | h
      · rcases max_choice a x with hm | hm
        · exact Or.inl (by rw [List.foldl_cons, h, hm])
        · exact Or.inr (by rw [List.foldl_cons, h, hm]; exact List.mem_cons_self x xs)
      · exact Or.inr (List.mem_cons_of_mem x h)

lemma foldl_max_mem_of_ne_nil (l : List Nat) (h : l ≠ []) : l.foldl max 0 ∈ l := by
  cases l with
  | nil => exact absurd rfl h
  | cons x xs =>
      have hx : max 0 x = x := Nat.zero_max x
      rcases foldl_max_eq_or_mem xs (max 0 x) with h2 | h2
      · rw [List.foldl_cons, h2, hx]; exact List.mem_cons_self x xs
      · rw [List.foldl_cons]; exact List.mem_cons_of_mem x h2

lemma foldl_max_le (l : List Nat) (b : Nat) (h : ∀ x ∈ l, x ≤ b) :
    l.foldl max 0 ≤ b := by
  have aux : ∀ (l : List Nat) (a : Nat), a ≤ b → (∀ x ∈ l, x ≤ b) → l.foldl max a ≤ b := by
    intro l
    induction l with
    | nil => intro a ha _; exact ha
    | cons x xs ih =>
        intro a ha hl
        exact ih (max a x) (max_le ha (hl x (List.mem_cons_self x xs)))
          (fun y hy => hl y (List.mem_cons_of_mem x hy))
  exact aux l 0 (Nat.zero_le b) h

lemma riskScore_le_two (r : Str) : riskScore r ≤ 2 := by
  unfold riskScore
  split
  · omega
  · split
    · omega
    · split <;> omega

lemma riskScore_scoreLevel (n : Nat) (h : n ≤ 2) : riskScore (scoreLevel n) = n := by
  interval_cases n <;> decide

lemma scoreLevel_riskScore (r : Str) (h : validRisk r) : scoreLevel (riskScore r) = r := by
  rcases h with h | h | h <;> subst h <;> decide

lemma clauseRisk_false_eq (m : Str) (w : List Str) : clauseRisk false m w = m := by
  simp [clauseRisk]

lemma clauseRisk_true_eq_aux (m : Str) (warnings : List Str) :
    clauseRisk true m warnings =
      (if warnings.any (fun w => containsSub sevMarker w) = true then ("high").toList
       else if warnings ≠ [] then ("medium").toList else ("low").toList) := by
  unfold clauseRisk
  have hlh : (("low").toList : Str) ≠ ("high").toList := by decide
  by_cases hw : warnings = []
  · subst hw; simp
  · by_cases ha : warnings.any (fun w => containsSub sevMarker w) = true
    · simp [hw, ha, hlh]
    · simp [hw, ha, hlh]

lemma clauseRisk_valid (hasMatch : Bool) (m : Str) (w : List Str)
    (hm : validRisk m) : validRisk (clauseRisk hasMatch m w) := by
  cases hasMatch with
  | false => rw [clauseRisk_false_eq]; exact hm
  | true =>
      rw [clauseRisk_true_eq_aux]
      split
      · exact Or.inr (Or.inr rfl)
      · split
        · exact Or.inr (Or.inl rfl)
        · exact Or.inl rfl

lemma evaluateClause_risk_level (c : ClauseConfig) (ss : List Str) :
    (evaluateClause c ss).risk_level =
      clauseRisk (!(matchedSentences c ss).isEmpty) c.missing_risk
        (evaluateWarnings c (matchedSentences c ss)).1 := rfl

lemma evaluateClause_present (c : ClauseConfig) (ss : List Str) :
    (evaluateClause c ss).present = !(matchedSentences c ss).isEmpty := rfl

lemma evaluateClause_risk_valid (c : ClauseConfig) (ss : List Str)
    (h : validRisk c.missing_risk) : validRisk (evaluateClause c ss).risk_level := by
  rw [evaluateClause_risk_level]
  exact clauseRisk_valid _ _ _ h

lemma foldl_warnStep_fst (cfg : ClauseConfig) (ss : List Str) :
    ∀ acc : List Str × List Str,
      (List.foldl (warnStep cfg) acc ss).1 =
        acc.1 ++ (ss.map (sentenceWarnings cfg)).flatten := by
  induction ss with
  | nil => intro acc; simp
  | cons s ss ih =>
      intro acc
      rw [List.foldl_cons, ih]
      simp [warnStep, List.append_assoc]

lemma evaluateWarnings_fst (cfg : ClauseConfig) (ss : List Str) :
    (evaluateWarnings cfg ss).1 = (ss.map (sentenceWarnings cfg)).flatten := by
  unfold evaluateWarnings
  rw [foldl_warnStep_fst]
  rfl

lemma evaluateWarnings_fst_shape (cfg : ClauseConfig) (ss : List Str) (w : Str)
    (hw : w ∈ (evaluateWarnings cfg ss).1) :
    ∃ kw ∈ cfg.warning_keywords, w = warningMsg kw := by
  rw [evaluateWarnings_fst] at hw
  rcases List.mem_flatten.mp hw with ⟨ws, hws, hmem⟩
  rcases List.mem_map.mp hws with ⟨s, _, rfl⟩
  rcases List.mem_map.mp hmem with ⟨kw, hkw, rfl⟩
  exact ⟨kw, (List.mem_filter.mp hkw).1, rfl⟩

lemma dropWhile_head_false {p : Char → Bool} :
    ∀ {l : Str} {c : Char} {rest : Str}, l.dropWhile p = c :: rest → p c = false := by
  intro l
  induction l with
  | nil => intro c rest h; cases h
  | cons a as ih =>
      intro c rest h
      rw [List.dropWhile_cons] at h
      by_cases ha : p a = true
      · rw [if_pos ha] at h
        exact ih h
      · rw [if_neg ha] at h
        cases h
        exact Bool.eq_false_iff.mpr ha

lemma all_dropWhile_nil {p : Char → Bool} :
    ∀ {l : Str}, l.all p = true → l.dropWhile p = [] := by
  intro l
  induction l with
  | nil => intro _; rfl
  | cons a as ih =>
      intro h
      rcases List.all_eq_true.mp h a (List.mem_cons_self a as) with ha
      rw [List.dropWhile_cons, if_pos ha]
      exact ih (List.all_eq_true.mpr fun x hx =>
        List.all_eq_true.mp h x (List.mem_cons_of_mem a hx))

lemma strip_nil_of_all_space {l : Str} (h : l.all isSpaceChar = true) :
    strip l = [] := by
  unfold strip
  rw [all_dropWhile_nil h]
  rfl

lemma strip_ne_single_newline (l : Str) : strip l ≠ [('\n')] := by
  intro h
  unfold strip at h
  have h2 : ((l.dropWhile isSpaceChar).reverse.dropWhile isSpaceChar) = [('\n')] := by
    have := congrArg List.reverse h
    simpa using this
  have := dropWhile_head_false h2
  exact absurd this (by decide)

lemma splitSentences_mem (t s : Str) (hs : s ∈ splitSentences t) :
    s ≠ [] ∧ s ≠ [('\n')] := by
  unfold splitSentences at hs
  rcases List.mem_filter.mp hs with ⟨hmem, hne⟩
  constructor
  · intro h; subst h; simp at hne
  · rcases List.mem_map.mp hmem with ⟨frag, _, rfl⟩
    exact strip_ne_single_newline frag

lemma isPrefixOf_getElem? :
    ∀ {k t : Str}, k.isPrefixOf t = true → ∀ j, j < k.length → t[j]? = k[j]? := by
  intro k
  induction k with
  | nil => intro t _ j hj; simp at hj
  | cons c k ih =>
      intro t h j hj
      cases t with
      | nil => simp [List.isPrefixOf] at h
      | cons d t =>
          simp only [List.isPrefixOf, Bool.and_eq_true, beq_iff_eq] at h
          cases j with
          | zero => simp [h.1]
          | succ j =>
              simp only [List.getElem?_cons_succ]
              exact ih h.2 j (by simpa using hj)

lemma alnum_not_space {c : Char} (h : c.isAlphanum = true) : isSpaceChar c = false := by
  by_contra h2
  have h3 : isSpaceChar c = true := Bool.of_not_eq_false h2
  unfold isSpaceChar at h3
  simp only [Bool.or_eq_true, decide_eq_true_eq] at h3
  rcases h3 with ((((h3 | h3) | h3) | h3) | h3) | h3 <;> subst h3 <;> exact absurd h (by decide)

lemma alnum_word {c : Char} (h : c.isAlphanum = true) : isWordChar c = true := by
  unfold isWordChar
  rw [h]
  rfl

lemma calculateOverallRisk_spec (results : List ClauseResult)
    (hv : ∀ r ∈ results, validRisk r.risk_level) :
    (∀ r ∈ results, riskScore r.risk_level ≤ riskScore (calculateOverallRisk results))
    ∧ (results = [] → calculateOverallRisk results = ("low").toList)
    ∧ (results ≠ [] →
        ∃ r ∈ results, r.risk_level = calculateOverallRisk results) := by
  have hle2 : ∀ x ∈ results.map fun r => riskScore r.risk_level, x ≤ 2 := by
    intro x hx
    rcases List.mem_map.mp hx with ⟨r, _, rfl⟩
    exact riskScore_le_two _
  have hM2 : (results.map fun r => riskScore r.risk_level).foldl max 0 ≤ 2 :=
    foldl_max_le _ 2 hle2
  have hscoreM : riskScore (calculateOverallRisk results)
      = (results.map fun r => riskScore r.risk_level).foldl max 0 :=
    riskScore_scoreLevel _ hM2
  refine ⟨?_, ?_, ?_⟩
  · intro r hr
    rw [hscoreM]
    exact mem_le_foldl_max _ 0 _ (List.mem_map.mpr ⟨r, hr, rfl⟩)
  · intro h; subst h; rfl
  · intro h
    have hsne : (results.map fun r => riskScore r.risk_level) ≠ [] := by
      intro h2
      exact h (List.map_eq_nil_iff.mp h2)
    rcases List.mem_map.mp (foldl_max_mem_of_ne_nil _ hsne) with ⟨r, hr, hrs⟩
    refine ⟨r, hr, ?_⟩
    show r.risk_level = scoreLevel ((results.map fun r => riskScore r.risk_level).foldl max 0)
    rw [← hrs]
    exact (scoreLevel_riskScore _ (hv r hr)).symm

lemma matchedSentences_eq_nil (config : ClauseConfig) (ss : List Str)
    (h : ∀ s ∈ ss, ∀ kw ∈ config.keywords,
      patternSearch (buildKeywordPattern kw) s = false) :
    matchedSentences config ss = [] := by
  unfold matchedSentences
  rw [List.filter_eq_nil_iff]
  intro s hs hany
  rcases List.any_eq_true.mp hany with ⟨p, hp, hps⟩
  rcases List.mem_map.mp hp with ⟨kw, hkw, rfl⟩
  rw [h s hs kw hkw] at hps
  cases hps

/-! ### Claim theorems -/

/-- Claim C1: for every input string, the `overall_risk` of the result of
`review` is the maximum, under the ordinal order low = 0 < medium = 1 <
high = 2, of the `risk_level`s of the per-clause results: it bounds every
per-clause score, it is `low` when the configured clause list is empty,
and it is attained by some clause result otherwise.  The hypothesis that
each configured `missing_risk` is a valid level is the data-model
invariant the maximum is stated under. -/
theorem claim1_overall_risk_is_max (svc : ContractReviewService)
    (hvalid : ∀ c ∈ svc.clauses, validRisk c.missing_risk) (text : Str) :
    (∀ r ∈ (svc.review text).clauses,
        riskScore r.risk_level ≤ riskScore (svc.review text).overall_risk)
    ∧ ((svc.review text).clauses = [] →
        (svc.review text).overall_risk = ("low").toList)
    ∧ ((svc.review text).clauses ≠ [] →
        ∃ r ∈ (svc.review text).clauses,
          r.risk_level = (svc.review text).overall_risk) := by
  have hv : ∀ r ∈ (svc.review text).clauses, validRisk r.risk_level := by
    intro r hr
    have hr2 : r ∈ svc.clauses.map fun c =>
        evaluateClause c (splitSentences (normaliseText text)) := hr
    rcases List.mem_map.mp hr2 with ⟨c, hc, rfl⟩
    exact evaluateClause_risk_valid _ _ (hvalid c hc)
  exact calculateOverallRisk_spec (svc.review text).clauses hv

/-- Witness for C1 at the default service and the empty input. -/
theorem claim1_overall_risk_is_max_witness :
    (∀ c ∈ defaultService.clauses, validRisk c.missing_risk)
    ∧ ((∀ r ∈ (defaultService.review []).clauses,
          riskScore r.risk_level ≤ riskScore (defaultService.review []).overall_risk)
       ∧ ((defaultService.review []).clauses = [] →
            (defaultService.review []).overall_risk = ("low").toList)
       ∧ ((defaultService.review []).clauses ≠ [] →
            ∃ r ∈ (defaultService.review []).clauses,
              r.risk_level = (defaultService.review []).overall_risk)) :=
  ⟨by decide, claim1_overall_risk_is_max defaultService (by decide) []⟩

/-- Claim C3: a clause config with non-empty keywords none of which
matches any sentence yields an absent result: `present = false`,
`risk_level = missing_risk`, a single not-detected issue message, and no
notes. -/
theorem claim3_absent_clause_result (config : ClauseConfig) (sentences : List Str)
    (_hk : config.keywords ≠ [])
    (hnone : ∀ s ∈ sentences, ∀ kw ∈ config.keywords,
        patternSearch (buildKeywordPattern kw) s = false) :
    evaluateClause config sentences =
      { name := config.name
        present := false
        risk_level := config.missing_risk
        matched_sentences := []
        issues := [notDetectedMsg config.name]
        notes := []
        recommendation := config.recommendation
        summary := config.summary } := by
  have hm : matchedSentences config sentences = [] :=
    matchedSentences_eq_nil config sentences hnone
  simp [evaluateClause, hm, clauseRisk_false_eq, evaluateWarnings, warnStep]

/-- A one-keyword config and a sentence its keyword does not match,
exercising C3. -/
def sampleConfig : ClauseConfig :=
  { name := ("Sample").toList
    keywords := [("payment").toList]
    missing_risk := ("medium").toList
    summary := []
    recommendation := []
    warning_keywords := []
    positive_keywords := [] }

/-- Witness for C3 at a concrete config and sentence list. -/
theorem claim3_absent_clause_result_witness :
    (sampleConfig.keywords ≠ []
     ∧ ∀ s ∈ [("no relevant words here").toList], ∀ kw ∈ sampleConfig.keywords,
         patternSearch (buildKeywordPattern kw) s = false)
    ∧ evaluateClause sampleConfig [("no relevant words here").toList] =
        { name := sampleConfig.name
          present := false
          risk_level := sampleConfig.missing_risk
          matched_sentences := []
          issues := [notDetectedMsg sampleConfig.name]
          notes := []
          recommendation := sampleConfig.recommendation
          summary := sampleConfig.summary } :=
  ⟨⟨by decide, by decide⟩,
   claim3_absent_clause_result sampleConfig [("no relevant words here").toList]
     (by decide) (by decide)⟩

lemma sentenceWarnings_eq_nil_iff (cfg : ClauseConfig) (s : Str) :
    sentenceWarnings cfg s = [] ↔
      ∀ kw ∈ cfg.warning_keywords, ¬containsSub kw s = true := by
  unfold sentenceWarnings
  rw [List.map_eq_nil_iff, List.filter_eq_nil_iff]

/-- Claim C2: for a clause evaluation in which at least one sentence
matched a keyword, the risk level is `high` when some produced warning
carries the severe marker, else `medium` when some warning was produced,
else `low`; and a warning is produced exactly when some warning phrase
occurs in some matched sentence. -/
theorem claim2_present_clause_risk (config : ClauseConfig) (sentences : List Str)
    (hmatch : matchedSentences config sentences ≠ []) :
    ((evaluateClause config sentences).risk_level =
      (if ((evaluateWarnings config (matchedSentences config sentences)).1.any
            fun w => containsSub sevMarker w) = true then ("high").toList
       else if (evaluateWarnings config (matchedSentences config sentences)).1 ≠ []
            then ("medium").toList else ("low").toList))
    ∧ ((evaluateWarnings config (matchedSentences config sentences)).1 ≠ [] ↔
        ∃ s ∈ matchedSentences config sentences,
          ∃ kw ∈ config.warning_keywords, containsSub kw s = true) := by
  constructor
  · rw [evaluateClause_risk_level]
    have hb : (!(matchedSentences config sentences).isEmpty) = true := by
      simp [List.isEmpty_eq_false.mpr hmatch]
    rw [hb, clauseRisk_true_eq_aux]
  · rw [evaluateWarnings_fst]
    constructor
    · intro h
      by_contra h2
      push_neg at h2
      apply h
      rw [List.flatten_eq_nil_iff]
      intro ws hws
      rcases List.mem_map.mp hws with ⟨s, hs, rfl⟩
      rw [sentenceWarnings_eq_nil_iff]
      intro kw hkw
      exact h2 s hs kw hkw
    · rintro ⟨s, hs, kw, hkw, hc⟩ h
      rw [List.flatten_eq_nil_iff] at h
      have hws := h (sentenceWarnings config s) (List.mem_map.mpr ⟨s, hs, rfl⟩)
      exact ((sentenceWarnings_eq_nil_iff config s).mp hws kw hkw) hc

/-- A config with a warning keyword and a sentence that both matches the
clause keyword and contains the warning phrase, exercising C2. -/
def warnConfig : ClauseConfig :=
  { name := ("Warned").toList
    keywords := [("terminate").toList]
    missing_risk := ("high").toList
    summary := []
    recommendation := []
    warning_keywords := [("sole discretion").toList]
    positive_keywords := [] }

/-- Witness for C2 at a concrete config and matched sentence. -/
theorem claim2_present_clause_risk_witness :
    (matchedSentences warnConfig [("terminate at sole discretion now").toList] ≠ [])
    ∧ (((evaluateClause warnConfig [("terminate at sole discretion now").toList]).risk_level =
        (if ((evaluateWarnings warnConfig
                (matchedSentences warnConfig [("terminate at sole discretion now").toList])).1.any
              fun w => containsSub sevMarker w) = true then ("high").toList
         else if (evaluateWarnings warnConfig
                (matchedSentences warnConfig [("terminate at sole discretion now").toList])).1 ≠ []
              then ("medium").toList else ("low").toList))
      ∧ ((evaluateWarnings warnConfig
            (matchedSentences warnConfig [("terminate at sole discretion now").toList])).1 ≠ [] ↔
          ∃ s ∈ matchedSentences warnConfig [("terminate at sole discretion now").toList],
            ∃ kw ∈ warnConfig.warning_keywords, containsSub kw s = true)) :=
  ⟨by decide,
   claim2_present_clause_risk warnConfig [("terminate at sole discretion now").toList]
     (by decide)⟩

/-- Claim C4: on empty or whitespace-only input, `review` returns (it is a
total function of the embedding) a result in which every configured clause
is absent with its `missing_risk`, and the overall risk is the maximum of
the configured `missing_risk` values (bounding every one of them, equal to
`low` for an empty configuration, attained by some configured clause
otherwise). -/
theorem claim4_whitespace_review (svc : ContractReviewService)
    (hvalid : ∀ c ∈ svc.clauses, validRisk c.missing_risk)
    (text : Str) (hws : text.all isSpaceChar = true) :
    ((svc.review text).clauses = svc.clauses.map fun c =>
      { name := c.name
        present := false
        risk_level := c.missing_risk
        matched_sentences := []
        issues := [notDetectedMsg c.name]
        notes := []
        recommendation := c.recommendation
        summary := c.summary })
    ∧ (svc.clauses = [] → (svc.review text).overall_risk = ("low").toList)
    ∧ (∀ c ∈ svc.clauses,
        riskScore c.missing_risk ≤ riskScore (svc.review text).overall_risk)
    ∧ (svc.clauses ≠ [] →
        ∃ c ∈ svc.clauses, c.missing_risk = (svc.review text).overall_risk) := by
  have hnorm : normaliseText text = [] := by
    unfold normaliseText
    rw [strip_nil_of_all_space hws]
    rfl
  have hsent : splitSentences (normaliseText text) = [] := by rw [hnorm]; rfl
  have hclauses : (svc.review text).clauses = svc.clauses.map fun c =>
      ({ name := c.name
         present := false
         risk_level := c.missing_risk
         matched_sentences := []
         issues := [notDetectedMsg c.name]
         notes := []
         recommendation := c.recommendation
         summary := c.summary } : ClauseResult) := by
    show (svc.clauses.map fun c =>
        evaluateClause c (splitSentences (normaliseText text))) = _
    rw [hsent]
    exact List.map_congr_left fun c _ => by
      simp [evaluateClause, matchedSentences, clauseRisk_false_eq,
        evaluateWarnings, warnStep]
  have hv : ∀ r ∈ (svc.review text).clauses, validRisk r.risk_level := by
    intro r hr
    rw [hclauses] at hr
    rcases List.mem_map.mp hr with ⟨c, hc, rfl⟩
    exact hvalid c hc
  have hspec := calculateOverallRisk_spec (svc.review text).clauses hv
  refine ⟨hclauses, ?_, ?_, ?_⟩
  · intro h
    exact hspec.2.1 (by rw [hclauses, h]; rfl)
  · intro c hc
    have hmem : ({ name := c.name
                   present := false
                   risk_level := c.missing_risk
                   matched_sentences := []
                   issues := [notDetectedMsg c.name]
                   notes := []
                   recommendation := c.recommendation
                   summary := c.summary } : ClauseResult) ∈ (svc.review text).clauses := by
      rw [hclauses]
      exact List.mem_map.mpr ⟨c, hc, rfl⟩
    exact hspec.1 _ hmem
  · intro h
    have hne : (svc.review text).clauses ≠ [] := by
      rw [hclauses]
      intro h2
      exact h (List.map_eq_nil_iff.mp h2)
    rcases hspec.2.2 hne with ⟨r, hr, hrl⟩
    rw [hclauses] at hr
    rcases List.mem_map.mp hr with ⟨c, hc, rfl⟩
    exact ⟨c, hc, hrl⟩

/-- Witness for C4 at the default service and the empty input. -/
theorem claim4_whitespace_review_witness :
    ((∀ c ∈ defaultService.clauses, validRisk c.missing_risk)
     ∧ (([] : Str).all isSpaceChar = true))
    ∧ (((defaultService.review []).clauses = defaultService.clauses.map fun c =>
          { name := c.name
            present := false
            risk_level := c.missing_risk
            matched_sentences := []
            issues := [notDetectedMsg c.name]
            notes := []
            recommendation := c.recommendation
            summary := c.summary })
       ∧ (defaultService.clauses = [] →
            (defaultService.review []).overall_risk = ("low").toList)
       ∧ (∀ c ∈ defaultService.clauses,
            riskScore c.missing_risk ≤ riskScore (defaultService.review []).overall_risk)
       ∧ (defaultService.clauses ≠ [] →
            ∃ c ∈ defaultService.clauses,
              c.missing_risk = (defaultService.review []).overall_risk)) :=
  ⟨⟨by decide, by decide⟩,
   claim4_whitespace_review defaultService (by decide) [] (by decide)⟩

lemma searchWB_single (k s : Str) (hne : k ≠ [])
    (halnum : k.all Char.isAlphanum = true) (h : searchWB [k] s = true) :
    ∃ i, k.isPrefixOf (s.drop i) = true
      ∧ (i = 0 ∨ wordAt s (i - 1) = false)
      ∧ wordAt s (i + k.length) = false := by
  rcases List.any_eq_true.mp h with ⟨i, _, hinner⟩
  rcases List.any_eq_true.mp hinner with ⟨l, hl, hb⟩
  have hends : matchEnds [k] (s.drop i)
      = if k.isPrefixOf (s.drop i) = true then [k.length] else [] := rfl
  rw [hends] at hl
  by_cases hpre : k.isPrefixOf (s.drop i) = true
  · rw [if_pos hpre] at hl
    have hleq : l = k.length := by simpa using hl
    subst hleq
    rw [Bool.and_eq_true] at hb
    have hklen : 0 < k.length := List.length_pos.mpr hne
    have hw0 : wordAt s i = true := by
      have hc0 : s[i]? = k[0]? := by
        have := isPrefixOf_getElem? hpre 0 hklen
        rwa [List.getElem?_drop, Nat.add_zero] at this
      have hk0 : ∃ c0, k[0]? = some c0 ∧ c0 ∈ k := by
        rw [List.getElem?_eq_getElem hklen]
        exact ⟨_, rfl, List.getElem_mem hklen⟩
      rcases hk0 with ⟨c0, hk0, hc0mem⟩
      unfold wordAt
      rw [hc0, hk0]
      exact alnum_word (List.all_eq_true.mp halnum _ hc0mem)
    have hwlast : wordAt s (i + (k.length - 1)) = true := by
      have hlt : k.length - 1 < k.length := by omega
      have hcl : s[i + (k.length - 1)]? = k[k.length - 1]? := by
        have := isPrefixOf_getElem? hpre (k.length - 1) hlt
        rwa [List.getElem?_drop] at this
      have hkl : ∃ cl, k[k.length - 1]? = some cl ∧ cl ∈ k := by
        rw [List.getElem?_eq_getElem hlt]
        exact ⟨_, rfl, List.getElem_mem hlt⟩
      rcases hkl with ⟨cl, hkl, hclmem⟩
      unfold wordAt
      rw [hcl, hkl]
      exact alnum_word (List.all_eq_true.mp halnum _ hclmem)
    refine ⟨i, hpre, ?_, ?_⟩
    · have hb1 := hb.1
      unfold boundaryAt at hb1
      rw [hw0] at hb1
      have hif : (if i = 0 then false else wordAt s (i - 1)) = false := by
        rcases Bool.eq_false_or_eq_true (if i = 0 then false else wordAt s (i - 1))
          with h2 | h2
        · rw [h2] at hb1; simp at hb1
        · exact h2
      by_cases hi0 : i = 0
      · exact Or.inl hi0
      · right
        rwa [if_neg hi0] at hif
    · have hb2 := hb.2
      unfold boundaryAt at hb2
      have hne0 : ¬(i + k.length = 0) := by omega
      rw [if_neg hne0, show i + k.length - 1 = i + (k.length - 1) by omega,
        hwlast] at hb2
      rcases Bool.eq_false_or_eq_true (wordAt s (i + k.length)) with h2 | h2
      · rw [h2] at hb2; simp at hb2
      · exact h2
  · rw [if_neg hpre] at hl
    cases hl

/-- Claim C5: for a single-word alphanumeric keyword, every match found by
the compiled matcher sits at an occurrence of the (normalised) keyword
with no word character directly before or after it — so an occurrence
strictly inside a longer word never counts — and in particular the keyword
"ip" does not match the sentence "equipment". -/
theorem claim5_single_word_boundary (kw : Str) (s : Str)
    (hne : normKeyword kw ≠ [])
    (halnum : (normKeyword kw).all Char.isAlphanum = true)
    (hmatch : patternSearch (buildKeywordPattern kw) s = true) :
    (∃ i, (normKeyword kw).isPrefixOf (s.drop i) = true
        ∧ (i = 0 ∨ wordAt s (i - 1) = false)
        ∧ wordAt s (i + (normKeyword kw).length) = false)
    ∧ patternSearch (buildKeywordPattern (("ip").toList)) (("equipment").toList)
        = false := by
  refine ⟨?_, by decide⟩
  have h1 : (normKeyword kw).isEmpty = false := List.isEmpty_eq_false.mpr hne
  have h2 : (normKeyword kw).any isSpaceChar = false := by
    rw [List.any_eq_false]
    intro x hx h3
    rw [alnum_not_space (List.all_eq_true.mp halnum x hx)] at h3
    cases h3
  have h3 : (normKeyword kw).any isWordChar = true := by
    rw [List.any_eq_true]
    cases hk : normKeyword kw with
    | nil => exact absurd hk hne
    | cons c k2 =>
        refine ⟨c, List.mem_cons_self c k2, ?_⟩
        apply alnum_word
        apply List.all_eq_true.mp halnum
        rw [hk]
        exact List.mem_cons_self c k2
  have hpat : buildKeywordPattern kw = KeywordPattern.boundary [normKeyword kw] := by
    unfold buildKeywordPattern
    simp [h1, h2, h3]
  rw [hpat] at hmatch
  exact searchWB_single (normKeyword kw) s hne halnum hmatch

/-- Witness for C5: the keyword "ip" genuinely matches a sentence where it
stands as its own word. -/
theorem claim5_single_word_boundary_witness :
    (normKeyword (("ip").toList) ≠ []
     ∧ (normKeyword (("ip").toList)).all Char.isAlphanum = true
     ∧ patternSearch (buildKeywordPattern (("ip").toList))
         (("assign ip rights").toList) = true)
    ∧ ((∃ i, (normKeyword (("ip").toList)).isPrefixOf
            ((("assign ip rights").toList).drop i) = true
          ∧ (i = 0 ∨ wordAt (("assign ip rights").toList) (i - 1) = false)
          ∧ wordAt (("assign ip rights").toList)
              (i + (normKeyword (("ip").toList)).length) = false)
       ∧ patternSearch (buildKeywordPattern (("ip").toList))
           (("equipment").toList) = false) :=
  ⟨⟨by decide, by decide, by decide⟩,
   claim5_single_word_boundary (("ip").toList) (("assign ip rights").toList)
     (by decide) (by decide) (by decide)⟩

lemma review_clauses (svc : ContractReviewService) (text : Str) :
    (svc.review text).clauses = svc.clauses.map fun c =>
      evaluateClause c (splitSentences (normaliseText text)) := rfl

lemma review_overall (svc : ContractReviewService) (text : Str) :
    (svc.review text).overall_risk = calculateOverallRisk (svc.clauses.map fun c =>
      evaluateClause c (splitSentences (normaliseText text))) := rfl

/-- The Scenario B contract text. -/
def scenarioBText : Str :=
  ("Either party may terminate this agreement upon thirty days written notice. The parties agree to limit liability with a maximum cap on damages. Confidential information must be returned or destroyed within ten days.").toList

set_option maxRecDepth 100000 in
/-- Claim C6: on the Scenario B input with the default configuration,
the Termination clause (index 0) is present with risk `low` and a
non-empty notes list, the Liability clause (index 2) has risk `low` with a
non-empty notes list, and the overall risk is `medium`. -/
theorem claim6_scenario_b :
    ((((defaultService.review scenarioBText).clauses[0]?).map
        fun r => (r.present, r.risk_level, r.notes.isEmpty))
      = some (true, ("low").toList, false))
    ∧ ((((defaultService.review scenarioBText).clauses[2]?).map
        fun r => (r.risk_level, r.notes.isEmpty))
      = some (("low").toList, false))
    ∧ (defaultService.review scenarioBText).overall_risk = ("medium").toList := by
  decide

/-- A clause config whose `missing_risk` is not one of low, medium, high. -/
def badConfig : ClauseConfig :=
  { name := ("Bad").toList
    keywords := [("x").toList]
    missing_risk := ("critical").toList
    summary := []
    recommendation := []
    warning_keywords := []
    positive_keywords := [] }

/-- Counterexample to C7 as stated: a service constructed with an invalid
`missing_risk` is not rejected at configuration-build time — the
construction is total and `review` runs, returning the invalid string
verbatim as the clause's risk level while the aggregator scores it as
ordinal 0 and reports `low`. -/
theorem claim7_counterexample :
    ((ContractReviewService.mk [badConfig]).review []).clauses.map
        ClauseResult.risk_level = [("critical").toList]
    ∧ ((ContractReviewService.mk [badConfig]).review []).overall_risk
        = ("low").toList := by
  decide

/-- Amended C7: construction performs no validation, so an invalid
`missing_risk` is silently carried to review time: on blank input the
absent clause's `risk_level` is the invalid string itself and the overall
risk degrades to `low` (ordinal 0). -/
theorem claim7_amended (c : ClauseConfig) (text : Str)
    (hinv : ¬validRisk c.missing_risk) (hws : text.all isSpaceChar = true) :
    ((ContractReviewService.mk [c]).review text).clauses.map
        ClauseResult.risk_level = [c.missing_risk]
    ∧ ((ContractReviewService.mk [c]).review text).overall_risk
        = ("low").toList := by
  have hnorm : normaliseText text = [] := by
    unfold normaliseText
    rw [strip_nil_of_all_space hws]
    rfl
  have hsent : splitSentences (normaliseText text) = [] := by rw [hnorm]; rfl
  have hscore : riskScore c.missing_risk = 0 := by
    unfold riskScore
    unfold validRisk at hinv
    push_neg at hinv
    rw [if_neg hinv.1, if_neg hinv.2.1, if_neg hinv.2.2]
  have hrl : (evaluateClause c ([] : List Str)).risk_level = c.missing_risk := rfl
  constructor
  · rw [review_clauses, hsent]
    show [(evaluateClause c ([] : List Str)).risk_level] = [c.missing_risk]
    rw [hrl]
  · rw [review_overall, hsent]
    show scoreLevel (max 0
        (riskScore (evaluateClause c ([] : List Str)).risk_level))
      = ("low").toList
    rw [hrl, hscore]
    decide

/-- Witness for the amended C7 at the concrete invalid config. -/
theorem claim7_amended_witness :
    ((¬validRisk badConfig.missing_risk) ∧ ([] : Str).all isSpaceChar = true)
    ∧ (((ContractReviewService.mk [badConfig]).review []).clauses.map
          ClauseResult.risk_level = [badConfig.missing_risk]
       ∧ ((ContractReviewService.mk [badConfig]).review []).overall_risk
          = ("low").toList) :=
  ⟨⟨by decide, by decide⟩, claim7_amended badConfig [] (by decide) (by decide)⟩

/-- Claim C8: `review` and `generate_report` are pure functions of their
arguments in this embedding — the service object carries only the
immutable configuration list, and the source mutates no other state — so
two calls on identical input give identical results and byte-identical
report text. -/
theorem claim8_deterministic :
    (∀ (svc : ContractReviewService) (text : Str), svc.review text = svc.review text)
    ∧ ∀ (r : ReviewResult), generate_report r = generate_report r :=
  ⟨fun _ _ => rfl, fun _ => rfl⟩

/-- Counterexample to C9 as stated: the pattern compiled for an empty
keyword is `^$`, and `re.search` of `^$` against the empty sentence string
does find a match. -/
theorem claim9_counterexample :
    patternSearch (buildKeywordPattern []) [] = true := by decide

/-- Amended C9: every sentence produced by the pipeline's splitter is
non-empty (and is not a lone newline), and against such sentences the
matcher built from an empty or whitespace-only keyword never matches, so
such a keyword can never mark a clause as present.  (On the empty string
itself the compiled `^$` pattern does match, but that string never occurs
as a sentence.) -/
theorem claim9_amended (config : ClauseConfig) (text : Str)
    (hkw : ∀ kw ∈ config.keywords, kw.all isSpaceChar = true) :
    (∀ s ∈ splitSentences (normaliseText text), ∀ kw ∈ config.keywords,
        patternSearch (buildKeywordPattern kw) s = false)
    ∧ (evaluateClause config (splitSentences (normaliseText text))).present
        = false := by
  have hfalse : ∀ s ∈ splitSentences (normaliseText text), ∀ kw ∈ config.keywords,
      patternSearch (buildKeywordPattern kw) s = false := by
    intro s hs kw hkwm
    have hpat : buildKeywordPattern kw = KeywordPattern.emptyPat := by
      unfold buildKeywordPattern
      have hn : normKeyword kw = [] := by
        unfold normKeyword
        rw [strip_nil_of_all_space (hkw kw hkwm)]
        rfl
      simp [hn]
    rw [hpat]
    rcases splitSentences_mem _ s hs with ⟨h1, h2⟩
    simp only [patternSearch]
    rw [List.isEmpty_eq_false.mpr h1, decide_eq_false h2]
    rfl
  refine ⟨hfalse, ?_⟩
  rw [evaluateClause_present,
    matchedSentences_eq_nil config _ (fun s hs kw hkw2 => hfalse s hs kw hkw2)]
  rfl

/-- A config whose keywords are the empty string and a blank string,
exercising the amended C9. -/
def wsConfig : ClauseConfig :=
  { name := ("Empty").toList
    keywords := [[], [(' ')]]
    missing_risk := ("low").toList
    summary := []
    recommendation := []
    warning_keywords := []
    positive_keywords := [] }

/-- Witness for the amended C9 at a concrete config and input text. -/
theorem claim9_amended_witness :
    (∀ kw ∈ wsConfig.keywords, kw.all isSpaceChar = true)
    ∧ ((∀ s ∈ splitSentences (normaliseText (("hello there. bye").toList)),
          ∀ kw ∈ wsConfig.keywords,
            patternSearch (buildKeywordPattern kw) s = false)
       ∧ (evaluateClause wsConfig
            (splitSentences (normaliseText (("hello there. bye").toList)))).present
          = false) :=
  ⟨by decide, claim9_amended wsConfig (("hello there. bye").toList) (by decide)⟩

lemma mem_of_index_some {l : List ClauseConfig} {n : Nat} {a : ClauseConfig}
    (h : l[n]? = some a) : a ∈ l := by
  have h2 : l.get? n = some a := by
    rw [List.get?_eq_getElem?]
    exact h
  exact List.get?_mem h2

set_option maxRecDepth 100000 in
lemma defaultConfigs_no_severe :
    ∀ cc ∈ defaultConfigs, ∀ kw ∈ cc.warning_keywords,
      containsSub sevMarker (warningMsg kw) = false := by decide

/-- Claim C10: under the default configuration, a clause that is present
never receives risk `high`: the severe escalation requires a rendered
warning message containing the marker, and no default warning keyword
produces such a message, so present clauses end at `low` or `medium`. -/
theorem claim10_default_present_not_high (text : Str) (i : Nat)
    (h : ((defaultService.review text).clauses[i]?).map ClauseResult.present
        = some true) :
    (((defaultService.review text).clauses[i]?).map ClauseResult.risk_level
        = some (("low").toList))
    ∨ (((defaultService.review text).clauses[i]?).map ClauseResult.risk_level
        = some (("medium").toList)) := by
  have hcl : (defaultService.review text).clauses
      = defaultConfigs.map fun c =>
          evaluateClause c (splitSentences (normaliseText text)) := rfl
  rw [hcl, List.getElem?_map] at h ⊢
  cases hc : defaultConfigs[i]? with
  | none => rw [hc] at h; simp at h
  | some c =>
      rw [hc] at h
      simp only [Option.map_some'] at h ⊢
      have hp : (evaluateClause c (splitSentences (normaliseText text))).present
          = true := Option.some.inj h
      have hcmem : c ∈ defaultConfigs := mem_of_index_some hc
      have hmne : matchedSentences c (splitSentences (normaliseText text)) ≠ [] := by
        rw [evaluateClause_present] at hp
        intro heq
        rw [heq] at hp
        cases hp
      have hb : (!(matchedSentences c (splitSentences (normaliseText text))).isEmpty)
          = true := by
        simp [List.isEmpty_eq_false.mpr hmne]
      have hsev : ((evaluateWarnings c
          (matchedSentences c (splitSentences (normaliseText text)))).1.any
            fun w => containsSub sevMarker w) = false := by
        rcases Bool.eq_false_or_eq_true ((evaluateWarnings c
            (matchedSentences c (splitSentences (normaliseText text)))).1.any
              fun w => containsSub sevMarker w) with h2 | h2
        · exfalso
          rcases List.any_eq_true.mp h2 with ⟨w, hw, hws⟩
          rcases evaluateWarnings_fst_shape _ _ _ hw with ⟨kwx, hkwx, rfl⟩
          rw [defaultConfigs_no_severe c hcmem kwx hkwx] at hws
          cases hws
        · exact h2
      have hrisk := evaluateClause_risk_level c (splitSentences (normaliseText text))
      rw [hb, clauseRisk_true_eq_aux, hsev] at hrisk
      rw [if_neg Bool.false_ne_true] at hrisk
      by_cases hw : (evaluateWarnings c
          (matchedSentences c (splitSentences (normaliseText text)))).1 = []
      · left
        rw [hrisk, if_neg fun hn => hn hw]
      · right
        rw [hrisk, if_pos hw]

set_option maxRecDepth 100000 in
/-- Witness for C10 at the Scenario B text and the present Termination
clause. -/
theorem claim10_default_present_not_high_witness :
    (((defaultService.review scenarioBText).clauses[0]?).map ClauseResult.present
        = some true)
    ∧ ((((defaultService.review scenarioBText).clauses[0]?).map
          ClauseResult.risk_level = some (("low").toList))
       ∨ (((defaultService.review scenarioBText).clauses[0]?).map
          ClauseResult.risk_level = some (("medium").toList))) :=
  ⟨by decide, claim10_default_present_not_high scenarioBText 0 (by decide)⟩

end ContractReview
